import Mathlib

/-
Verification of the AI Gateway of Sentinel-Copilot-S2
(src/js/services/storage-idb.js, embedded services/api.js section:
ResponseCache, ApiService.call, provider adapters, ApiService.stream).

Shallow embedding conventions:
- JavaScript `Map` is modelled as an insertion-ordered association list
  `List (String × CacheEntry)`; `Map.set` on an existing key updates the
  entry in place (keeping its position), on a fresh key it appends;
  `Map.delete` removes the entry; `map.keys().next().value` is the head.
- `Date.now()` is passed explicitly as a `now : Nat` parameter.
- JavaScript strings are UTF-16; we model characters by their code points
  (`Char.toNat`), which coincides with the code-unit value for all BMP
  characters (every string occurring in this development is ASCII).
- 32-bit signed integer arithmetic (`hash |= 0`, `hash << 5`) is modelled
  on the unsigned residue in `[0, 2^32)`; the signed value is recovered by
  `toSigned32` when rendering with `Number.prototype.toString(36)`.
- Network calls are modelled by an environment (`ProviderEnv`, `StreamEnv`)
  recording what each upstream provider / the chunked reader would return;
  the outcome records how many provider requests were issued.
- `performance.now()` response-time bookkeeping (wall clock) is not
  modelled; no verified property depends on it.
- A missing JS object field (`undefined`, e.g. `failover` on non-failover
  return paths) is modelled as `none : Option Bool`.
-/

-- ═══════════════════════════════════════════════════════════════════════════
-- JS Map model (insertion-ordered association list)
-- ═══════════════════════════════════════════════════════════════════════════

/-- One cache entry: `{ response, timestamp }` as stored by `ResponseCache.set`. -/
structure CacheEntry where
  response : String
  timestamp : Nat
deriving DecidableEq, Repr

/-- JS `map.has(k)` / "is `k` a key of the map". -/
def mapHasKey (m : List (String × CacheEntry)) (k : String) : Bool :=
  m.any (fun p => p.1 == k)

/-- JS `map.get(k)`. -/
def mapGet (m : List (String × CacheEntry)) (k : String) : Option CacheEntry :=
  (m.find? (fun p => p.1 == k)).map (fun p => p.2)

/-- JS `map.set(k, v)`: in-place update when the key exists (keeping insertion
order), append otherwise. -/
def mapSet (m : List (String × CacheEntry)) (k : String) (v : CacheEntry) :
    List (String × CacheEntry) :=
  if mapHasKey m k then m.map (fun p => if p.1 == k then (k, v) else p)
  else m ++ [(k, v)]

/-- JS `map.delete(k)`. -/
def mapDelete (m : List (String × CacheEntry)) (k : String) :
    List (String × CacheEntry) :=
  m.filter (fun p => !(p.1 == k))

-- ═══════════════════════════════════════════════════════════════════════════
-- ResponseCache (storage-idb.js lines 731-789)
-- ═══════════════════════════════════════════════════════════════════════════

/-- The mutable state of the `ResponseCache` object: the backing `Map` plus
its `maxSize` and `ttlMs` fields. -/
structure ResponseCacheState where
  cache : List (String × CacheEntry)
  maxSize : Nat
  ttlMs : Nat
deriving DecidableEq, Repr

/-- The module-level `ResponseCache` literal: empty map, `maxSize: 100`,
`ttlMs: 30 * 60 * 1000`. -/
def initialCache : ResponseCacheState :=
  { cache := [], maxSize := 100, ttlMs := 30 * 60 * 1000 }

/-- One step of the JS string hash:
`hash = ((hash << 5) - hash) + str.charCodeAt(i); hash |= 0`.
On the unsigned 32-bit residue this is `(31*h + c) mod 2^32` (the shift
wraps modulo `2^32` and `|= 0` truncates to 32 bits; subtraction and the
character addition are exact in doubles at these magnitudes). -/
def jsHashStep (h : Nat) (c : Char) : Nat :=
  (31 * h + c.toNat) % 2 ^ 32

/-- The full loop of `ResponseCache.generateKey`, starting from `hash = 0`. -/
def jsHash (s : List Char) : Nat :=
  s.foldl jsHashStep 0

/-- Reinterpret the unsigned 32-bit residue as the signed `Int32` value the
JS variable actually holds after `hash |= 0`. -/
def toSigned32 (n : Nat) : Int :=
  if n < 2 ^ 31 then (n : Int) else (n : Int) - 2 ^ 32

/-- Digit characters used by `Number.prototype.toString(36)`: `0-9` then
lowercase `a-z`. -/
def digit36 (n : Nat) : Char :=
  if n < 10 then Char.ofNat (48 + n) else Char.ofNat (87 + n)

/-- Base-36 digits of `n`, most significant first (empty for `n = 0`);
`fuel` bounds the recursion and is ample for 32-bit values. -/
def natToBase36Aux : Nat → Nat → List Char
  | 0, _ => []
  | fuel + 1, n =>
    if n = 0 then [] else natToBase36Aux fuel (n / 36) ++ [digit36 (n % 36)]

/-- JS `n.toString(36)` for a non-negative number. -/
def natToBase36 (n : Nat) : String :=
  if n = 0 then "0" else ⟨natToBase36Aux 40 n⟩

/-- JS `i.toString(36)` for a (possibly negative) 32-bit value. -/
def intToBase36 (i : Int) : String :=
  if i < 0 then "-" ++ natToBase36 i.natAbs else natToBase36 i.toNat

/-- JS `systemPrompt.slice(0, 200)`. -/
def slice200 (s : String) : String :=
  ⟨s.data.take 200⟩

namespace ResponseCache

/-- Source `ResponseCache.generateKey(systemPrompt, userPrompt, model)`:
hash of `` `${model}:${systemPrompt.slice(0,200)}:${userPrompt}` ``
rendered in base 36 from the signed 32-bit hash value. -/
def generateKey (systemPrompt userPrompt model : String) : String :=
  intToBase36 (toSigned32
    (jsHash (model ++ ":" ++ slice200 systemPrompt ++ ":" ++ userPrompt).data))

/-- Source `ResponseCache.get(key)`: returns the cached response if present and
unexpired; an expired entry is deleted as a side effect and `null` is
returned. Returns the (possibly updated) state alongside the result. -/
def get (st : ResponseCacheState) (key : String) (now : Nat) :
    Option String × ResponseCacheState :=
  match mapGet st.cache key with
  | none => (none, st)
  | some entry =>
    if now - entry.timestamp > st.ttlMs then
      (none, { st with cache := mapDelete st.cache key })
    else
      (some entry.response, st)

/-- Source `ResponseCache.set(key, response)`: if `size >= maxSize`, delete the
first key yielded by the map's iteration (`keys().next().value`, i.e. the
oldest-inserted surviving entry; a no-op on an empty map), then
insert/overwrite `{ response, timestamp: Date.now() }`. -/
def set (st : ResponseCacheState) (key response : String) (now : Nat) :
    ResponseCacheState :=
  let m :=
    if st.maxSize ≤ st.cache.length then
      match st.cache.head? with
      | some oldest => mapDelete st.cache oldest.1
      | none => st.cache
    else st.cache
  { st with cache := mapSet m key ⟨response, now⟩ }

/-- Source `ResponseCache.clear()`. -/
def clear (st : ResponseCacheState) : ResponseCacheState :=
  { st with cache := [] }

end ResponseCache

/-- One externally invokable cache operation (for stating invariants over
arbitrary operation sequences). -/
inductive CacheOp where
  | get (key : String) (now : Nat)
  | set (key response : String) (now : Nat)
  | clear
deriving Repr

/-- State transition of one cache operation (the value returned by `get`
is irrelevant to state invariants). -/
def applyOp (st : ResponseCacheState) : CacheOp → ResponseCacheState
  | .get key now => (ResponseCache.get st key now).2
  | .set key response now => ResponseCache.set st key response now
  | .clear => ResponseCache.clear st

/-- Run a sequence of cache operations. -/
def runOps (ops : List CacheOp) (st : ResponseCacheState) : ResponseCacheState :=
  ops.foldl applyOp st

/-- Keys of the cache in insertion order. -/
def keysOf (st : ResponseCacheState) : List String :=
  st.cache.map Prod.fst

-- ═══════════════════════════════════════════════════════════════════════════
-- ApiService.call (storage-idb.js lines 795-912)
-- ═══════════════════════════════════════════════════════════════════════════

/-- The `apiKeys` option object; a missing property is `none`. -/
structure ApiKeys where
  cerebras : Option String := none
  gemini : Option String := none
deriving DecidableEq, Repr

/-- JS truthiness of `apiKeys.cerebras` / `apiKeys.gemini`: present and not
the empty string. -/
def truthyKey : Option String → Bool
  | none => false
  | some s => !(s == "")

/-- The destructured `options` argument of `ApiService.call`, with the
source's default values. -/
structure CallOptions where
  systemPrompt : String := ""
  userPrompt : String
  apiKeys : ApiKeys := {}
  model : String := "llama-3.3-70b"
  useCache : Bool := true
  stream : Bool := false
deriving DecidableEq, Repr

/-- Outcome of each upstream provider if its `call` were issued with the
current request (network environment of one invocation).
`Except.error msg` models the adapter throwing an error whose `.message`
is `msg`; `Except.ok text` models the extracted completion text. -/
structure ProviderEnv where
  cerebras : Except String String
  gemini : Except String String
deriving Repr

/-- The object returned by `ApiService.call` (minus the unmodelled
wall-clock `responseTime`). `failover = none` models the `failover`
property being absent (`undefined`); the source sets it (to `true`) only
on the Gemini-after-Cerebras-failure path. -/
structure CallResult where
  response : String
  provider : String
  cached : Bool
  failover : Option Bool
deriving DecidableEq, Repr

/-- Result of one `ApiService.call` invocation: the value returned or the
error thrown, the cache state afterwards, and how many provider requests
were issued. -/
structure CallOutcome where
  result : Except String CallResult
  final : ResponseCacheState
  networkCalls : Nat
deriving Repr

/-- The provider-dispatch part of `ApiService.call`, entered after the
cache lookup missed (or was skipped): try Cerebras if its key is truthy,
fail over to Gemini, else Gemini alone, else throw the configuration
error. Mirrors lines 832-911 of the source, including the cache-store
sites (note the Gemini-only path stores under a key built with the literal
string `'gemini'` in place of `model`). -/
def networkPath (opts : CallOptions) (env : ProviderEnv) (now : Nat)
    (st : ResponseCacheState) : CallOutcome :=
  let checkCache := opts.useCache && !opts.stream
  if truthyKey opts.apiKeys.cerebras then
    match env.cerebras with
    | .ok response =>
      let key := ResponseCache.generateKey opts.systemPrompt opts.userPrompt opts.model
      let st2 := if checkCache then ResponseCache.set st key response now else st
      ⟨.ok ⟨response, "cerebras", false, none⟩, st2, 1⟩
    | .error cerebrasMsg =>
      if truthyKey opts.apiKeys.gemini then
        match env.gemini with
        | .ok response =>
          let key := ResponseCache.generateKey opts.systemPrompt opts.userPrompt opts.model
          let st2 := if checkCache then ResponseCache.set st key response now else st
          ⟨.ok ⟨response, "gemini", false, some true⟩, st2, 2⟩
        | .error geminiMsg =>
          ⟨.error ("Both APIs failed. Cerebras: " ++ cerebrasMsg ++ ", Gemini: " ++ geminiMsg),
            st, 2⟩
      else
        ⟨.error cerebrasMsg, st, 1⟩
  else if truthyKey opts.apiKeys.gemini then
    match env.gemini with
    | .ok response =>
      let keyG := ResponseCache.generateKey opts.systemPrompt opts.userPrompt "gemini"
      let st2 := if checkCache then ResponseCache.set st keyG response now else st
      ⟨.ok ⟨response, "gemini", false, none⟩, st2, 1⟩
    | .error geminiMsg => ⟨.error geminiMsg, st, 1⟩
  else
    ⟨.error "No API keys configured. Please add an API key in settings.", st, 0⟩

namespace ApiService

/-- Source `ApiService.call(options)`: check the cache first (when
`useCache && !stream`), returning `{ response, provider: 'cache',
cached: true }` on a hit; otherwise dispatch to the providers. -/
def call (opts : CallOptions) (env : ProviderEnv) (now : Nat)
    (st : ResponseCacheState) : CallOutcome :=
  if opts.useCache && !opts.stream then
    match ResponseCache.get st
        (ResponseCache.generateKey opts.systemPrompt opts.userPrompt opts.model) now with
    | (some cached, st1) => ⟨.ok ⟨cached, "cache", true, none⟩, st1, 0⟩
    | (none, st1) => networkPath opts env now st1
  else networkPath opts env now st

end ApiService

-- ═══════════════════════════════════════════════════════════════════════════
-- Streaming decoder (storage-idb.js lines 1059-1137)
-- ═══════════════════════════════════════════════════════════════════════════

/-- Whitespace removed by `String.prototype.trim()` (restricted to the
ASCII white-space characters; all strings in this development are ASCII). -/
def isWsChar (c : Char) : Bool :=
  c = ' ' || c = '\t' || c = '\n' || c = '\r' || c = '\x0b' || c = '\x0c'

/-- JS `line.trim()`. -/
def trimChars (cs : List Char) : List Char :=
  ((cs.dropWhile isWsChar).reverse.dropWhile isWsChar).reverse

/-- JS `chunk.split('\n')` (JS semantics: `"".split('\n') = [""]`,
a trailing separator yields a final empty piece). -/
def splitLines (cs : List Char) : List (List Char) :=
  match cs with
  | [] => [[]]
  | c :: rest =>
    match splitLines rest with
    | [] => [[]]
    | l :: ls => if c = '\n' then [] :: l :: ls else (c :: l) :: ls

/-- JS `line.replace(pat, '')` for a plain-string pattern: remove the first
occurrence of `pat`, leave the line unchanged when `pat` does not occur. -/
def replaceFirst (pat : List Char) : List Char → List Char
  | [] => []
  | c :: rest =>
    if pat.isPrefixOf (c :: rest) then (c :: rest).drop pat.length
    else c :: replaceFirst pat rest

/-- The stream-frame marker `'data:'`. -/
def dataTag : List Char := "data:".data

/-- The end-of-stream sentinel payload `'[DONE]'`. -/
def doneTag : List Char := "[DONE]".data

-- ─── JSON values and a strict parser modelling `JSON.parse` ───

/-- JSON values. Numbers keep their lexeme parts (sign, integer, fraction,
exponent digits); no verified property depends on their numeric value. -/
inductive Json where
  | jnull
  | jbool (b : Bool)
  | jnum (neg : Bool) (intPart fracPart expPart : List Char)
  | jstr (s : List Char)
  | jarr (elems : List Json)
  | jobj (fields : List (List Char × Json))
deriving Repr

/-- JSON insignificant whitespace (RFC 8259: space, tab, LF, CR). -/
def skipWs (cs : List Char) : List Char :=
  cs.dropWhile (fun c => c = ' ' || c = '\t' || c = '\n' || c = '\r')

/-- Hexadecimal digit value. -/
def hexVal (c : Char) : Option Nat :=
  if 48 ≤ c.toNat ∧ c.toNat ≤ 57 then some (c.toNat - 48)
  else if 97 ≤ c.toNat ∧ c.toNat ≤ 102 then some (c.toNat - 87)
  else if 65 ≤ c.toNat ∧ c.toNat ≤ 70 then some (c.toNat - 55)
  else none

/-- Parse the body of a JSON string after the opening quote; returns the
decoded characters and the remainder after the closing quote. Rejects raw
control characters and bad escapes, as `JSON.parse` does. -/
def parseStringBody : List Char → Option (List Char × List Char)
  | [] => none
  | '"' :: rest => some ([], rest)
  | '\\' :: rest =>
    match rest with
    | '"' :: r => (parseStringBody r).map (fun p => ('"' :: p.1, p.2))
    | '\\' :: r => (parseStringBody r).map (fun p => ('\\' :: p.1, p.2))
    | '/' :: r => (parseStringBody r).map (fun p => ('/' :: p.1, p.2))
    | 'b' :: r => (parseStringBody r).map (fun p => ('\x08' :: p.1, p.2))
    | 'f' :: r => (parseStringBody r).map (fun p => ('\x0c' :: p.1, p.2))
    | 'n' :: r => (parseStringBody r).map (fun p => ('\n' :: p.1, p.2))
    | 'r' :: r => (parseStringBody r).map (fun p => ('\r' :: p.1, p.2))
    | 't' :: r => (parseStringBody r).map (fun p => ('\t' :: p.1, p.2))
    | 'u' :: h1 :: h2 :: h3 :: h4 :: r =>
      match hexVal h1, hexVal h2, hexVal h3, hexVal h4 with
      | some a, some b, some c, some d =>
        (parseStringBody r).map
          (fun p => (Char.ofNat (((a * 16 + b) * 16 + c) * 16 + d) :: p.1, p.2))
      | _, _, _, _ => none
    | _ => none
  | c :: rest =>
    if c.toNat < 32 then none
    else (parseStringBody rest).map (fun p => (c :: p.1, p.2))

/-- Split a leading run of decimal digits. -/
def spanDigits (cs : List Char) : List Char × List Char :=
  (cs.takeWhile (fun c => c.isDigit), cs.dropWhile (fun c => c.isDigit))

/-- Parse an optional exponent part of a JSON number (after `e`/`E`). -/
def parseExpPart (neg : Bool) (intPart frac : List Char) (r : List Char) :
    Option (Json × List Char) :=
  let signAndRest : List Char × List Char :=
    match r with
    | '+' :: s => (['+'], s)
    | '-' :: s => (['-'], s)
    | _ => ([], r)
  match spanDigits signAndRest.2 with
  | ([], _) => none
  | (ds, r3) => some (.jnum neg intPart frac (signAndRest.1 ++ ds), r3)

/-- Parse the fraction/exponent continuation of a JSON number. -/
def parseNumTail (neg : Bool) (intPart : List Char) (r : List Char) :
    Option (Json × List Char) :=
  let fracRes : Option (List Char × List Char) :=
    match r with
    | '.' :: r2 =>
      match spanDigits r2 with
      | ([], _) => none
      | (ds, r3) => some (ds, r3)
    | _ => some ([], r)
  match fracRes with
  | none => none
  | some (frac, r3) =>
    match r3 with
    | 'e' :: r4 => parseExpPart neg intPart frac r4
    | 'E' :: r4 => parseExpPart neg intPart frac r4
    | _ => some (.jnum neg intPart frac [], r3)

/-- Parse a JSON number (strict grammar: `-?(0|[1-9][0-9]*)` then optional
fraction and exponent; a leading zero may not be followed by digits). -/
def parseNumber (cs : List Char) : Option (Json × List Char) :=
  let signAndRest : Bool × List Char :=
    match cs with
    | '-' :: r => (true, r)
    | _ => (false, cs)
  match signAndRest.2 with
  | '0' :: r => parseNumTail signAndRest.1 ['0'] r
  | c :: r =>
    if c.isDigit then
      match spanDigits r with
      | (ds, r2) => parseNumTail signAndRest.1 (c :: ds) r2
    else none
  | [] => none

mutual

/-- Parse one JSON value (fuel-bounded recursive-descent). -/
def parseValue : Nat → List Char → Option (Json × List Char)
  | 0, _ => none
  | fuel + 1, cs =>
    match skipWs cs with
    | 'n' :: 'u' :: 'l' :: 'l' :: rest => some (.jnull, rest)
    | 't' :: 'r' :: 'u' :: 'e' :: rest => some (.jbool true, rest)
    | 'f' :: 'a' :: 'l' :: 's' :: 'e' :: rest => some (.jbool false, rest)
    | '"' :: rest => (parseStringBody rest).map (fun p => (.jstr p.1, p.2))
    | '[' :: rest => parseArrayStart fuel rest
    | '{' :: rest => parseObjectStart fuel rest
    | other =>
      match other with
      | c :: _ => if c = '-' ∨ c.isDigit then parseNumber other else none
      | [] => none

/-- Parse array elements right after `[`. -/
def parseArrayStart : Nat → List Char → Option (Json × List Char)
  | 0, _ => none
  | fuel + 1, cs =>
    match skipWs cs with
    | ']' :: rest => some (.jarr [], rest)
    | _ =>
      match parseValue fuel cs with
      | some (v, r) => parseArrayTail fuel r [v]
      | none => none

/-- Parse `, value ... ]` after at least one array element. -/
def parseArrayTail : Nat → List Char → List Json → Option (Json × List Char)
  | 0, _, _ => none
  | fuel + 1, cs, acc =>
    match skipWs cs with
    | ']' :: rest => some (.jarr acc.reverse, rest)
    | ',' :: rest =>
      match parseValue fuel rest with
      | some (v, r) => parseArrayTail fuel r (v :: acc)
      | none => none
    | _ => none

/-- Parse object members right after `{`. -/
def parseObjectStart : Nat → List Char → Option (Json × List Char)
  | 0, _ => none
  | fuel + 1, cs =>
    match skipWs cs with
    | '}' :: rest => some (.jobj [], rest)
    | _ => parseMember fuel cs []

/-- Parse one `"name": value` member and continue. -/
def parseMember : Nat → List Char → List (List Char × Json) →
    Option (Json × List Char)
  | 0, _, _ => none
  | fuel + 1, cs, acc =>
    match skipWs cs with
    | '"' :: rest =>
      match parseStringBody rest with
      | some (name, r1) =>
        match skipWs r1 with
        | ':' :: r2 =>
          match parseValue fuel r2 with
          | some (v, r3) => parseObjectTail fuel r3 ((name, v) :: acc)
          | none => none
        | _ => none
      | none => none
    | _ => none

/-- Parse `, member ... }` after at least one object member. -/
def parseObjectTail : Nat → List Char → List (List Char × Json) →
    Option (Json × List Char)
  | 0, _, _ => none
  | fuel + 1, cs, acc =>
    match skipWs cs with
    | '}' :: rest => some (.jobj acc.reverse, rest)
    | ',' :: rest => parseMember fuel rest acc
    | _ => none

end

/-- JS `JSON.parse(data)`: parse one value, require only whitespace to remain.
The fuel is ample: every two parser frames consume at least one input
character. -/
def jsonParse (cs : List Char) : Option Json :=
  match parseValue (2 * cs.length + 2) cs with
  | some (v, rest) => if skipWs rest = [] then some v else none
  | none => none

/-- Property lookup on a parsed object: with duplicate keys `JSON.parse`
keeps the last occurrence. -/
def lookupLast (fields : List (List Char × Json)) (name : List Char) :
    Option Json :=
  ((fields.filter (fun f => f.1 == name)).getLast?).map (fun f => f.2)

/-- JS `obj?.name` optional-chained property access. -/
def Json.getField : Json → List Char → Option Json
  | .jobj fields, name => lookupLast fields name
  | _, _ => none

/-- JS `arr?.[i]` optional-chained index access. -/
def Json.atIndex : Json → Nat → Option Json
  | .jarr elems, i => elems.get? i
  | _, _ => none

/-- JS `parsed.choices?.[0]?.delta?.content` when it is a string. -/
def streamDelta (j : Json) : Option (List Char) :=
  match (((j.getField "choices".data).bind (fun c => c.atIndex 0)).bind
      (fun c => c.getField "delta".data)).bind
      (fun d => d.getField "content".data) with
  | some (.jstr s) => some s
  | _ => none

/-- The delta a `data:` payload contributes: `none` when `JSON.parse`
throws (the `catch` skips the line), when the path is absent (`|| ''`
yields the empty string) or when the delta is empty (`if (delta)` fails);
otherwise the non-empty delta string. -/
def frameDelta (payload : List Char) : Option (List Char) :=
  match jsonParse payload with
  | none => none
  | some j =>
    match streamDelta j with
    | some s => if s = [] then none else some s
    | none => none

/-- What one filtered `data:` line contributes:
`data = line.replace('data:', '').trim()`; the `'[DONE]'` sentinel is
skipped by `continue`; otherwise `frameDelta`. -/
def lineDelta (line : List Char) : Option (List Char) :=
  let d := trimChars (replaceFirst dataTag line)
  if d = doneTag then none else frameDelta d

/-- The loop's line filter: `line.trim().startsWith('data:')`. -/
def isDataLine (line : List Char) : Bool :=
  dataTag.isPrefixOf (trimChars line)

/-- One iteration of the inner `for (const line of lines)` loop over the
accumulator `(fullText, chunks emitted so far)`: on a non-empty delta,
`fullText += delta; onChunk(delta)`. -/
def procLine (acc : List Char × List (List Char)) (line : List Char) :
    List Char × List (List Char) :=
  match lineDelta line with
  | some d => (acc.1 ++ d, acc.2 ++ [d])
  | none => acc

/-- One iteration of the outer `while` loop: split the decoded read chunk
on newlines, keep the `data:` lines, process each. -/
def processChunk (acc : List Char × List (List Char)) (chunk : List Char) :
    List Char × List (List Char) :=
  ((splitLines chunk).filter isDataLine).foldl procLine acc

/-- The whole read loop over the sequence of chunks the reader delivers:
final `fullText` and the ordered list of strings passed to `onChunk`. -/
def processStream (chunks : List (List Char)) :
    List Char × List (List Char) :=
  chunks.foldl processChunk ([], [])

/-- Transport environment of one streaming session: whether the initial
`fetch` response is ok, the text chunks successive `reader.read()` calls
deliver, and whether the reader throws (instead of reporting done) once
they are exhausted. -/
structure StreamEnv where
  fetchOk : Bool
  chunks : List (List Char)
  readFails : Bool
deriving Repr

/-- Observable outcome of one streaming session: the arguments of every
`onChunk` call in order, the argument of `onComplete` (if it fired), and
whether `onError` fired. -/
structure StreamOutcome where
  chunksEmitted : List (List Char)
  completed : Option (List Char)
  errored : Bool
deriving Repr

/-- Source `ApiService.stream(options, onChunk, onComplete, onError)`: with no
truthy Cerebras key, delegate to `this.call({...options, stream: false})`
and report the whole response as one `onChunk` followed by `onComplete`
(or `onError` on a throw). Otherwise run the chunked read loop; a non-ok
response or reader failure reaches the `catch` and fires `onError`. -/
def ApiService.stream (opts : CallOptions) (senv : StreamEnv)
    (env : ProviderEnv) (now : Nat) (st : ResponseCacheState) :
    StreamOutcome × ResponseCacheState :=
  if !(truthyKey opts.apiKeys.cerebras) then
    match ApiService.call { opts with stream := false } env now st with
    | ⟨.ok r, st1, _⟩ => (⟨[r.response.data], some r.response.data, false⟩, st1)
    | ⟨.error _, st1, _⟩ => (⟨[], none, true⟩, st1)
  else if !senv.fetchOk then
    (⟨[], none, true⟩, st)
  else if senv.readFails then
    (⟨(processStream senv.chunks).2, none, true⟩, st)
  else
    (⟨(processStream senv.chunks).2, some (processStream senv.chunks).1, false⟩, st)

-- ═══════════════════════════════════════════════════════════════════════════
-- Derived definitions and concrete fixtures used by the theorems
-- ═══════════════════════════════════════════════════════════════════════════

/-- Decidable equality of call results (for evaluating the model at
concrete inputs). -/
instance {ε α : Type} [DecidableEq ε] [DecidableEq α] : DecidableEq (Except ε α) :=
  fun a b =>
    match a, b with
    | .ok x, .ok y =>
      if h : x = y then isTrue (by rw [h]) else isFalse (fun hc => h (Except.ok.inj hc))
    | .error x, .error y =>
      if h : x = y then isTrue (by rw [h]) else isFalse (fun hc => h (Except.error.inj hc))
    | .ok _, .error _ => isFalse (fun hc => Except.noConfusion hc)
    | .error _, .ok _ => isFalse (fun hc => Except.noConfusion hc)

/-- The cache's state invariant: bounded by `maxSize`, which is positive. -/
def cacheInv (st : ResponseCacheState) : Prop :=
  st.cache.length ≤ st.maxSize ∧ 1 ≤ st.maxSize

/-- The deltas one read chunk contributes, in order. -/
def chunkDeltas (chunk : List Char) : List (List Char) :=
  ((splitLines chunk).filter isDataLine).filterMap lineDelta

/-- What one whole line of the byte stream contributes once the loop's
filter is taken into account. -/
def lineEffect (line : List Char) : Option (List Char) :=
  if isDataLine line then lineDelta line else none

/-- Reassemble complete lines into one read chunk (`'\n'`-separated, no
trailing newline). -/
def joinNL : List (List Char) → List Char
  | [] => []
  | [l] => l
  | l :: l2 :: ls => l ++ '\n' :: joinNL (l2 :: ls)

/-- A well-formed event frame carrying the delta `"X"`. -/
def frameX : List Char :=
  "data: \x7b\"choices\":[\x7b\"delta\":\x7b\"content\":\"X\"\x7d\x7d]\x7d".data

/-- A well-formed event frame carrying the delta `"Y"`. -/
def frameY : List Char :=
  "data: \x7b\"choices\":[\x7b\"delta\":\x7b\"content\":\"Y\"\x7d\x7d]\x7d".data

/-- A corrupt event frame (`data:` line whose payload is not JSON). -/
def frameBad : List Char := "data: \x7bnot json".data

/-- A request with only a Gemini key (the failing configuration of C1). -/
def geminiOnlyOpts : CallOptions :=
  { userPrompt := "hi", apiKeys := { gemini := some "g" } }

/-- A request with only a Cerebras key. -/
def cerebrasOnlyOpts : CallOptions :=
  { userPrompt := "hi", apiKeys := { cerebras := some "k" } }

/-- A request with no API keys at all. -/
def keylessOpts : CallOptions := { userPrompt := "hi" }

/-- Cerebras down, Gemini answering `"resp"`. -/
def geminiUpEnv : ProviderEnv := { cerebras := .error "down", gemini := .ok "resp" }

/-- Cerebras answering `"resp"`, Gemini down. -/
def cerebrasUpEnv : ProviderEnv := { cerebras := .ok "resp", gemini := .error "x" }

/-- A cache that is exactly at the shipped capacity (100 distinct keys
`"0" … "99"`), fresh timestamps. -/
def fullCache : ResponseCacheState :=
  ⟨(List.range 100).map (fun i => (Nat.repr i, ⟨"v", 0⟩)), 100, 1800000⟩

/-- A cache holding a valid entry for `keylessOpts`' lookup key. -/
def seededCache : ResponseCacheState :=
  ⟨[(ResponseCache.generateKey "" "hi" "llama-3.3-70b", ⟨"resp", 0⟩)], 100, 1800000⟩

-- ═══════════════════════════════════════════════════════════════════════════
-- Cache lemmas
-- ═══════════════════════════════════════════════════════════════════════════

theorem mapHasKey_iff_mem (m : List (String × CacheEntry)) (k : String) :
    mapHasKey m k = true ↔ k ∈ m.map Prod.fst := by
  constructor
  · intro h
    rw [mapHasKey, List.any_eq_true] at h
    obtain ⟨p, hp, hbeq⟩ := h
    have hp1 : p.1 = k := by simpa using hbeq
    exact hp1 ▸ List.mem_map_of_mem Prod.fst hp
  · intro h
    obtain ⟨p, hp, hk⟩ := List.mem_map.mp h
    rw [mapHasKey, List.any_eq_true]
    exact ⟨p, hp, by simp [hk]⟩

theorem mapSet_keys (m : List (String × CacheEntry)) (k : String) (v : CacheEntry) :
    (mapSet m k v).map Prod.fst =
      if k ∈ m.map Prod.fst then m.map Prod.fst else m.map Prod.fst ++ [k] := by
  by_cases hk : k ∈ m.map Prod.fst
  · rw [if_pos hk]
    rw [mapSet, if_pos ((mapHasKey_iff_mem m k).mpr hk), List.map_map]
    apply List.map_congr_left
    intro p _
    simp only [Function.comp_apply]
    by_cases hp : p.1 = k
    · simp [hp]
    · simp [hp]
  · rw [if_neg hk]
    have hmk : ¬ (mapHasKey m k = true) := fun hc => hk ((mapHasKey_iff_mem m k).mp hc)
    rw [mapSet, if_neg hmk]
    simp

theorem mapSet_length_le (m : List (String × CacheEntry)) (k : String) (v : CacheEntry) :
    (mapSet m k v).length ≤ m.length + 1 := by
  rw [mapSet]
  split
  · simp
  · simp

theorem mapDelete_cons_self (p : String × CacheEntry) (t : List (String × CacheEntry)) :
    mapDelete (p :: t) p.1 = mapDelete t p.1 := by
  simp [mapDelete]

theorem mapDelete_eq_self (t : List (String × CacheEntry)) (k : String)
    (h : k ∉ t.map Prod.fst) : mapDelete t k = t := by
  rw [mapDelete, List.filter_eq_self]
  intro p hp
  simp only [Bool.not_eq_eq_eq_not, Bool.not_true, beq_eq_false_iff_ne, ne_eq]
  intro he
  exact h (he ▸ List.mem_map_of_mem Prod.fst hp)

theorem mapHasKey_cons_false {p : String × CacheEntry} {t : List (String × CacheEntry)}
    {k : String} (h : mapHasKey (p :: t) k = false) : mapHasKey t k = false := by
  rw [mapHasKey] at h ⊢
  simp only [List.any_cons, Bool.or_eq_false_iff] at h
  exact h.2

theorem mapSet_append_of_no_key (m : List (String × CacheEntry)) (k : String)
    (v : CacheEntry) (h : mapHasKey m k = false) : mapSet m k v = m ++ [(k, v)] := by
  rw [mapSet, if_neg]
  simp [h]

theorem get_length_le (st : ResponseCacheState) (key : String) (now : Nat) :
    ((ResponseCache.get st key now).2).cache.length ≤ st.cache.length := by
  rw [ResponseCache.get]
  split
  · simp
  · split
    · simpa [mapDelete] using List.length_filter_le (fun p => !(p.1 == key)) st.cache
    · simp

theorem get_maxSize (st : ResponseCacheState) (key : String) (now : Nat) :
    ((ResponseCache.get st key now).2).maxSize = st.maxSize := by
  rw [ResponseCache.get]
  split
  · simp
  · split
    · simp
    · simp

theorem set_maxSize (st : ResponseCacheState) (key response : String) (now : Nat) :
    (ResponseCache.set st key response now).maxSize = st.maxSize := by
  rw [ResponseCache.set]

theorem set_length_le (st : ResponseCacheState) (key response : String) (now : Nat)
    (hpos : 1 ≤ st.maxSize) (hle : st.cache.length ≤ st.maxSize) :
    (ResponseCache.set st key response now).cache.length ≤ st.maxSize := by
  cases hc : st.cache with
  | nil =>
    rw [ResponseCache.set]
    simp only [hc]
    split
    · simpa [mapSet, mapHasKey] using hpos
    · simpa [mapSet, mapHasKey] using hpos
  | cons p t =>
    rw [hc] at hle
    rw [ResponseCache.set]
    simp only [hc]
    by_cases hfull : st.maxSize ≤ (p :: t).length
    · rw [if_pos hfull]
      simp only [List.head?]
      calc (mapSet (mapDelete (p :: t) p.1) key ⟨response, now⟩).length
          ≤ (mapDelete (p :: t) p.1).length + 1 := mapSet_length_le _ _ _
        _ = (mapDelete t p.1).length + 1 := by rw [mapDelete_cons_self]
        _ ≤ t.length + 1 := by
            have := List.length_filter_le (fun q => !(q.1 == p.1)) t
            rw [mapDelete]; omega
        _ = (p :: t).length := by simp
        _ ≤ st.maxSize := hle
    · rw [if_neg hfull]
      have h1 : (p :: t).length < st.maxSize := by omega
      calc (mapSet (p :: t) key ⟨response, now⟩).length
          ≤ (p :: t).length + 1 := mapSet_length_le _ _ _
        _ ≤ st.maxSize := by omega

theorem applyOp_inv (st : ResponseCacheState) (op : CacheOp) (h : cacheInv st) :
    cacheInv (applyOp st op) := by
  obtain ⟨hle, hpos⟩ := h
  cases op with
  | get key now =>
    refine ⟨?_, ?_⟩
    · rw [applyOp]
      calc ((ResponseCache.get st key now).2).cache.length
          ≤ st.cache.length := get_length_le st key now
        _ ≤ st.maxSize := hle
        _ = ((ResponseCache.get st key now).2).maxSize := (get_maxSize st key now).symm
    · rw [applyOp, get_maxSize]; exact hpos
  | set key response now =>
    refine ⟨?_, ?_⟩
    · rw [applyOp, set_maxSize]
      exact set_length_le st key response now hpos hle
    · rw [applyOp, set_maxSize]; exact hpos
  | clear =>
    exact ⟨by simp [applyOp, ResponseCache.clear], by simpa [applyOp, ResponseCache.clear] using hpos⟩

theorem runOps_inv (ops : List CacheOp) (st : ResponseCacheState) (h : cacheInv st) :
    cacheInv (runOps ops st) := by
  induction ops generalizing st with
  | nil => exact h
  | cons op ops ih => exact ih (applyOp st op) (applyOp_inv st op h)

theorem runOps_maxSize (ops : List CacheOp) (st : ResponseCacheState) :
    (runOps ops st).maxSize = st.maxSize := by
  induction ops generalizing st with
  | nil => rfl
  | cons op ops ih =>
    rw [runOps, List.foldl_cons, ← runOps, ih]
    cases op with
    | get key now => exact get_maxSize st key now
    | set key response now => exact set_maxSize st key response now
    | clear => rfl

-- ═══════════════════════════════════════════════════════════════════════════
-- C5, C8: cache eviction behavior and the size bound
-- ═══════════════════════════════════════════════════════════════════════════

/-- Claim C5 as stated is false: a set whose key is already present in an
at-capacity cache still evicts another entry. In the shipped cache (100
entries, keys "0" … "99") overwriting the existing key "5" evicts "0". -/
theorem c5_counterexample :
    mapHasKey fullCache.cache "5" = true
    ∧ mapGet fullCache.cache "0" = some ⟨"v", 0⟩
    ∧ mapGet (ResponseCache.set fullCache "5" "w" 7).cache "0" = none
    ∧ (ResponseCache.set fullCache "5" "w" 7).cache.length = 99 := by
  refine ⟨by decide, by decide, by decide, by decide⟩

/-- Claim C5 (amended): `set(key, text)` inserts or overwrites; below
capacity it evicts nothing, but whenever the map holds at least `maxSize`
entries it first evicts the oldest-inserted entry — even when `key` is
already present. -/
theorem c5_set_always_evicts_at_capacity (st : ResponseCacheState)
    (k v : String) (now : Nat) (hnd : (keysOf st).Nodup) :
    (st.cache.length < st.maxSize →
      keysOf (ResponseCache.set st k v now) =
        if k ∈ keysOf st then keysOf st else keysOf st ++ [k])
    ∧ (st.maxSize ≤ st.cache.length → st.cache ≠ [] →
      keysOf (ResponseCache.set st k v now) =
        if k ∈ (keysOf st).tail then (keysOf st).tail else (keysOf st).tail ++ [k]) := by
  constructor
  · intro hlt
    rw [keysOf, ResponseCache.set]
    simp only [if_neg (by omega : ¬ st.maxSize ≤ st.cache.length)]
    rw [mapSet_keys]
    rfl
  · intro hfull hne
    cases hc : st.cache with
    | nil => exact absurd hc hne
    | cons p t =>
      rw [keysOf, ResponseCache.set]
      simp only [hc, if_pos (hc ▸ hfull), List.head?]
      have hnotin : p.1 ∉ t.map Prod.fst := by
        rw [keysOf, hc, List.map_cons, List.nodup_cons] at hnd
        exact hnd.1
      rw [mapDelete_cons_self, mapDelete_eq_self t p.1 hnotin, mapSet_keys]
      have htail : (keysOf st).tail = t.map Prod.fst := by
        rw [keysOf, hc]; rfl
      rw [htail]

/-- Witness for `c5_set_always_evicts_at_capacity` at a concrete
at-capacity state: overwriting at capacity evicts the head. -/
theorem c5_set_always_evicts_witness :
    (keysOf (⟨[("a", ⟨"r", 0⟩)], 1, 1800000⟩ : ResponseCacheState)).Nodup
    ∧ keysOf (ResponseCache.set ⟨[("a", ⟨"r", 0⟩)], 1, 1800000⟩ "b" "w" 5) = ["b"] := by
  refine ⟨by decide, ?_⟩
  have h := (c5_set_always_evicts_at_capacity ⟨[("a", ⟨"r", 0⟩)], 1, 1800000⟩ "b" "w" 5
    (by decide)).2 (by decide) (by decide)
  rw [h]
  decide

/-- Claim C8: after any sequence of get/set/clear operations starting from
the shipped cache the size never exceeds `maxSize = 100`; and inserting a
fresh key into an at-capacity cache evicts exactly the oldest-inserted
surviving entry (FIFO), keeping all others in order and the size at
`maxSize`. -/
theorem c8_cache_bounded_and_fifo :
    (∀ ops : List CacheOp, ((runOps ops initialCache).cache).length ≤ 100)
    ∧ (∀ (st : ResponseCacheState) (k v : String) (now : Nat),
        (keysOf st).Nodup → st.cache.length = st.maxSize → 1 ≤ st.maxSize →
        k ∉ keysOf st →
        keysOf (ResponseCache.set st k v now) = (keysOf st).tail ++ [k]
        ∧ (ResponseCache.set st k v now).cache.length = st.maxSize) := by
  constructor
  · intro ops
    have hinv := runOps_inv ops initialCache ⟨by decide, by decide⟩
    have h1 := hinv.1
    have hms : (runOps ops initialCache).maxSize = 100 := by
      rw [runOps_maxSize]; rfl
    omega
  · intro st k v now hnd hlen hpos hk
    cases hc : st.cache with
    | nil =>
      rw [hc] at hlen
      simp at hlen
      omega
    | cons p t =>
      have hfull : st.maxSize ≤ st.cache.length := by omega
      have hnotin : p.1 ∉ t.map Prod.fst := by
        rw [keysOf, hc, List.map_cons, List.nodup_cons] at hnd
        exact hnd.1
      have hkt : mapHasKey t k = false := by
        by_contra hcon
        rw [Bool.not_eq_false] at hcon
        have : k ∈ t.map Prod.fst := (mapHasKey_iff_mem t k).mp hcon
        apply hk
        rw [keysOf, hc, List.map_cons]
        exact List.mem_cons_of_mem _ this
      constructor
      · rw [keysOf, ResponseCache.set]
        simp only [hc, if_pos (hc ▸ hfull), List.head?]
        rw [mapDelete_cons_self, mapDelete_eq_self t p.1 hnotin,
          mapSet_append_of_no_key t k _ hkt]
        have htail : (keysOf st).tail = t.map Prod.fst := by
          rw [keysOf, hc]; rfl
        rw [htail]
        simp
      · rw [ResponseCache.set]
        simp only [hc, if_pos (hc ▸ hfull), List.head?]
        rw [mapDelete_cons_self, mapDelete_eq_self t p.1 hnotin,
          mapSet_append_of_no_key t k _ hkt]
        have hl1 : t.length + 1 = st.maxSize := by
          rw [hc] at hlen
          simpa using hlen
        simp [hl1]

/-- Witness for `c8_cache_bounded_and_fifo`: concrete operation sequence
and a concrete at-capacity insertion of a fresh key. -/
theorem c8_cache_bounded_witness :
    ((runOps [CacheOp.set "a" "r" 0, CacheOp.get "a" 1, CacheOp.clear] initialCache).cache).length ≤ 100
    ∧ keysOf (ResponseCache.set ⟨[("x", ⟨"r", 0⟩)], 1, 1800000⟩ "y" "w" 5) =
        (keysOf (⟨[("x", ⟨"r", 0⟩)], 1, 1800000⟩ : ResponseCacheState)).tail ++ ["y"] :=
  ⟨c8_cache_bounded_and_fifo.1 _,
    (c8_cache_bounded_and_fifo.2 ⟨[("x", ⟨"r", 0⟩)], 1, 1800000⟩ "y" "w" 5
      (by decide) (by decide) (by decide) (by decide)).1⟩

-- ═══════════════════════════════════════════════════════════════════════════
-- C10: the cache key space is bounded by 2^32 and collides
-- ═══════════════════════════════════════════════════════════════════════════

theorem jsHash_lt (s : List Char) : jsHash s < 2 ^ 32 := by
  rw [jsHash]
  have haux : ∀ (t : List Char) (h : Nat), h < 2 ^ 32 → t.foldl jsHashStep h < 2 ^ 32 := by
    intro t
    induction t with
    | nil => intro h hh; exact hh
    | cons c t ih =>
      intro h _
      rw [List.foldl_cons]
      exact ih (jsHashStep h c) (Nat.mod_lt _ (by norm_num))
  exact haux s 0 (by norm_num)

/-- Claim C10: `generateKey` factors through a 32-bit hash — every key is
the base-36 rendering of a signed 32-bit value, so at most `2^32` distinct
key strings exist — and two requests with different `userPrompt`s (not
merely ones differing past the 200th system-prompt character) collide on
the same key. -/
theorem c10_key_space_bounded_and_collision :
    (∀ systemPrompt userPrompt model : String, ∃ n : Nat, n < 2 ^ 32 ∧
      ResponseCache.generateKey systemPrompt userPrompt model = intToBase36 (toSigned32 n))
    ∧ ResponseCache.generateKey "S" "Aa" "m1" = ResponseCache.generateKey "S" "BB" "m1"
    ∧ ("Aa" : String) ≠ "BB" := by
  refine ⟨fun systemPrompt userPrompt model => ⟨_, jsHash_lt _, rfl⟩, by decide, by decide⟩

-- ═══════════════════════════════════════════════════════════════════════════
-- Call-path lemmas
-- ═══════════════════════════════════════════════════════════════════════════

theorem networkPath_ok_cases (opts : CallOptions) (env : ProviderEnv) (now : Nat)
    (st : ResponseCacheState) (r : CallResult)
    (h : (networkPath opts env now st).result = Except.ok r) :
    (truthyKey opts.apiKeys.cerebras = true ∧ env.cerebras = Except.ok r.response
      ∧ r.provider = "cerebras" ∧ r.cached = false ∧ r.failover = none)
    ∨ (truthyKey opts.apiKeys.cerebras = true ∧ truthyKey opts.apiKeys.gemini = true
      ∧ (∃ e, env.cerebras = Except.error e) ∧ env.gemini = Except.ok r.response
      ∧ r.provider = "gemini" ∧ r.cached = false ∧ r.failover = some true)
    ∨ (truthyKey opts.apiKeys.cerebras = false ∧ truthyKey opts.apiKeys.gemini = true
      ∧ env.gemini = Except.ok r.response
      ∧ r.provider = "gemini" ∧ r.cached = false ∧ r.failover = none) := by
  rw [networkPath] at h
  cases hc : truthyKey opts.apiKeys.cerebras with
  | true =>
    rw [hc] at h
    simp only [if_true] at h
    cases hce : env.cerebras with
    | ok response =>
      rw [hce] at h
      obtain rfl := (Except.ok.inj h).symm
      exact Or.inl ⟨rfl, rfl, rfl, rfl, rfl⟩
    | error cerebrasMsg =>
      rw [hce] at h
      cases hg : truthyKey opts.apiKeys.gemini with
      | true =>
        rw [hg] at h
        simp only [if_true] at h
        cases hge : env.gemini with
        | ok response =>
          rw [hge] at h
          obtain rfl := (Except.ok.inj h).symm
          exact Or.inr (Or.inl ⟨rfl, rfl, ⟨cerebrasMsg, rfl⟩, rfl, rfl, rfl, rfl⟩)
        | error geminiMsg =>
          rw [hge] at h
          exact absurd h (by simp)
      | false =>
        rw [hg] at h
        simp only [if_false] at h
        exact absurd h (by simp)
  | false =>
    rw [hc] at h
    simp only [if_false] at h
    cases hg : truthyKey opts.apiKeys.gemini with
    | true =>
      rw [hg] at h
      simp only [if_true] at h
      cases hge : env.gemini with
      | ok response =>
        rw [hge] at h
        obtain rfl := (Except.ok.inj h).symm
        exact Or.inr (Or.inr ⟨rfl, rfl, rfl, rfl, rfl, rfl⟩)
      | error geminiMsg =>
        rw [hge] at h
        exact absurd h (by simp)
    | false =>
      rw [hg, if_neg (by simp)] at h
      exact absurd h (by simp)

theorem call_ok_cases (opts : CallOptions) (env : ProviderEnv) (now : Nat)
    (st : ResponseCacheState) (r : CallResult)
    (h : (ApiService.call opts env now st).result = Except.ok r) :
    (r.provider = "cache" ∧ r.cached = true ∧ r.failover = none)
    ∨ ∃ st1, (networkPath opts env now st1).result = Except.ok r := by
  rw [ApiService.call] at h
  by_cases hcc : (opts.useCache && !opts.stream) = true
  · rw [if_pos hcc] at h
    rcases hg : ResponseCache.get st
        (ResponseCache.generateKey opts.systemPrompt opts.userPrompt opts.model) now
      with ⟨hit, st1⟩
    rw [hg] at h
    cases hit with
    | some cached =>
      obtain rfl := (Except.ok.inj h).symm
      exact Or.inl ⟨rfl, rfl, rfl⟩
    | none =>
      exact Or.inr ⟨st1, h⟩
  · rw [if_neg hcc] at h
    exact Or.inr ⟨st, h⟩

theorem networkPath_both_fail (opts : CallOptions) (env : ProviderEnv) (now : Nat)
    (st : ResponseCacheState) (e1 e2 : String)
    (hc : truthyKey opts.apiKeys.cerebras = true)
    (hg : truthyKey opts.apiKeys.gemini = true)
    (he1 : env.cerebras = Except.error e1) (he2 : env.gemini = Except.error e2) :
    networkPath opts env now st =
      ⟨Except.error ("Both APIs failed. Cerebras: " ++ e1 ++ ", Gemini: " ++ e2), st, 2⟩ := by
  rw [networkPath, hc, he1, hg, he2]
  simp

theorem networkPath_no_keys (opts : CallOptions) (env : ProviderEnv) (now : Nat)
    (st : ResponseCacheState)
    (hc : truthyKey opts.apiKeys.cerebras = false)
    (hg : truthyKey opts.apiKeys.gemini = false) :
    networkPath opts env now st =
      ⟨Except.error "No API keys configured. Please add an API key in settings.", st, 0⟩ := by
  rw [networkPath, hc, hg]
  simp

-- ═══════════════════════════════════════════════════════════════════════════
-- C1: identical repeat requests and the cache, per key configuration
-- ═══════════════════════════════════════════════════════════════════════════

/-- Claim C1 is the intent but the code breaks it on the secondary-only
configuration: the Gemini-only path stores under
`generateKey(systemPrompt, userPrompt, 'gemini')` while every lookup uses
`generateKey(systemPrompt, userPrompt, model)`, so with the default model
a second identical request misses the cache and issues another network
request (`cached = false`, one provider call).  The same repeat scenario
on the primary-only configuration behaves as the claim states
(`cached = true`, zero provider calls). -/
theorem c1_secondary_only_repeat_misses_cache :
    ((ApiService.call geminiOnlyOpts geminiUpEnv 0 initialCache).networkCalls = 1)
    ∧ ((ApiService.call geminiOnlyOpts geminiUpEnv 60000
          (ApiService.call geminiOnlyOpts geminiUpEnv 0 initialCache).final).networkCalls = 1)
    ∧ ((ApiService.call geminiOnlyOpts geminiUpEnv 60000
          (ApiService.call geminiOnlyOpts geminiUpEnv 0 initialCache).final).result =
        Except.ok ⟨"resp", "gemini", false, none⟩)
    ∧ ((ApiService.call cerebrasOnlyOpts cerebrasUpEnv 60000
          (ApiService.call cerebrasOnlyOpts cerebrasUpEnv 0 initialCache).final).networkCalls = 0)
    ∧ ((ApiService.call cerebrasOnlyOpts cerebrasUpEnv 60000
          (ApiService.call cerebrasOnlyOpts cerebrasUpEnv 0 initialCache).final).result =
        Except.ok ⟨"resp", "cache", true, none⟩)
    ∧ ResponseCache.generateKey "" "hi" "gemini" ≠
        ResponseCache.generateKey "" "hi" "llama-3.3-70b" := by
  refine ⟨by decide, by decide, by decide, by decide, by decide, by decide⟩

-- ═══════════════════════════════════════════════════════════════════════════
-- C2: the failover field
-- ═══════════════════════════════════════════════════════════════════════════

/-- Claim C2 as stated is false: on a cache hit (and on every non-failover
path) the returned object carries no `failover` property at all
(`undefined`, modelled `none`) rather than the boolean `false`. -/
theorem c2_counterexample :
    (ApiService.call cerebrasOnlyOpts cerebrasUpEnv 1000 seededCache).result =
      Except.ok ⟨"resp", "cache", true, none⟩
    ∧ (none : Option Bool) ≠ some false := by
  refine ⟨by decide, by decide⟩

/-- Claim C2 (amended): the `failover` field is set — and then equals
`true` — exactly on the path where Gemini served after a truthy Cerebras
key's call failed; on every other successful path (cache hit, Cerebras
success, Gemini-only) the field is absent (`undefined`/`none`, which is
falsy but not the boolean `false`); a cache hit returns
`provider = "cache"`, `cached = true` and no `failover` field. -/
theorem c2_failover_only_on_failover_path (opts : CallOptions) (env : ProviderEnv)
    (now : Nat) (st : ResponseCacheState) (r : CallResult)
    (h : (ApiService.call opts env now st).result = Except.ok r) :
    (r.failover = some true ∨ r.failover = none)
    ∧ (r.failover = some true ↔
        (r.provider = "gemini" ∧ truthyKey opts.apiKeys.cerebras = true
          ∧ ∃ e, env.cerebras = Except.error e))
    ∧ (r.provider = "cache" → r.cached = true ∧ r.failover = none) := by
  rcases call_ok_cases opts env now st r h with ⟨hp, hcd, hf⟩ | ⟨st1, hnet⟩
  · refine ⟨Or.inr hf, ?_, fun _ => ⟨hcd, hf⟩⟩
    constructor
    · intro hft
      rw [hf] at hft
      cases hft
    · rintro ⟨hpg, -, -⟩
      rw [hp] at hpg
      exact absurd hpg (by decide)
  · rcases networkPath_ok_cases opts env now st1 r hnet with
      ⟨hc, hce, hp, hcd, hf⟩ | ⟨hc, hg, hee, hge, hp, hcd, hf⟩ | ⟨hc, hg, hge, hp, hcd, hf⟩
    · refine ⟨Or.inr hf, ?_, fun hpc => absurd (hp ▸ hpc) (by decide)⟩
      constructor
      · intro hft
        rw [hf] at hft
        cases hft
      · rintro ⟨-, -, e, he⟩
        rw [hce] at he
        cases he
    · refine ⟨Or.inl hf, ?_, fun hpc => absurd (hp ▸ hpc) (by decide)⟩
      exact ⟨fun _ => ⟨hp, hc, hee⟩, fun _ => hf⟩
    · refine ⟨Or.inr hf, ?_, fun hpc => absurd (hp ▸ hpc) (by decide)⟩
      constructor
      · intro hft
        rw [hf] at hft
        cases hft
      · rintro ⟨-, hct, -⟩
        rw [hc] at hct
        cases hct

/-- Witness for `c2_failover_only_on_failover_path` at a successful
Cerebras-only call. -/
theorem c2_failover_only_witness :
    ((⟨"resp", "cerebras", false, none⟩ : CallResult).failover = some true
      ∨ (⟨"resp", "cerebras", false, none⟩ : CallResult).failover = none)
    ∧ ((⟨"resp", "cerebras", false, none⟩ : CallResult).failover = some true ↔
        ((⟨"resp", "cerebras", false, none⟩ : CallResult).provider = "gemini"
          ∧ truthyKey cerebrasOnlyOpts.apiKeys.cerebras = true
          ∧ ∃ e, cerebrasUpEnv.cerebras = Except.error e))
    ∧ ((⟨"resp", "cerebras", false, none⟩ : CallResult).provider = "cache" →
        (⟨"resp", "cerebras", false, none⟩ : CallResult).cached = true
        ∧ (⟨"resp", "cerebras", false, none⟩ : CallResult).failover = none) :=
  c2_failover_only_on_failover_path cerebrasOnlyOpts cerebrasUpEnv 0 initialCache
    ⟨"resp", "cerebras", false, none⟩ (by decide)

-- ═══════════════════════════════════════════════════════════════════════════
-- C7: combined error preserves both provider messages
-- ═══════════════════════════════════════════════════════════════════════════

/-- Claim C7: with both keys truthy, a cache miss (or caching disabled) and
both provider calls failing, `call` throws a single combined error whose
message contains both underlying provider messages as substrings. -/
theorem c7_combined_error_contains_both (opts : CallOptions) (env : ProviderEnv)
    (now : Nat) (st : ResponseCacheState) (e1 e2 : String)
    (hc : truthyKey opts.apiKeys.cerebras = true)
    (hg : truthyKey opts.apiKeys.gemini = true)
    (he1 : env.cerebras = Except.error e1) (he2 : env.gemini = Except.error e2)
    (hmiss : (opts.useCache && !opts.stream) = true →
      (ResponseCache.get st
        (ResponseCache.generateKey opts.systemPrompt opts.userPrompt opts.model) now).1 = none) :
    ∃ m, (ApiService.call opts env now st).result = Except.error m
      ∧ (∃ p s, m.data = p ++ e1.data ++ s)
      ∧ (∃ p s, m.data = p ++ e2.data ++ s) := by
  refine ⟨"Both APIs failed. Cerebras: " ++ e1 ++ ", Gemini: " ++ e2, ?_, ?_, ?_⟩
  · rw [ApiService.call]
    by_cases hcc : (opts.useCache && !opts.stream) = true
    · rw [if_pos hcc]
      have h1 := hmiss hcc
      rcases hgp : ResponseCache.get st
          (ResponseCache.generateKey opts.systemPrompt opts.userPrompt opts.model) now
        with ⟨hit, st1⟩
      cases hit with
      | some cached =>
        rw [hgp] at h1
        simp at h1
      | none =>
        show (networkPath opts env now st1).result = _
        rw [networkPath_both_fail opts env now st1 e1 e2 hc hg he1 he2]
    · rw [if_neg hcc, networkPath_both_fail opts env now st e1 e2 hc hg he1 he2]
  · refine ⟨("Both APIs failed. Cerebras: " : String).data, (", Gemini: " ++ e2 : String).data, ?_⟩
    simp [String.data_append, List.append_assoc]
  · refine ⟨("Both APIs failed. Cerebras: " ++ e1 ++ ", Gemini: " : String).data, [], ?_⟩
    simp [String.data_append, List.append_assoc]

/-- Witness for `c7_combined_error_contains_both` with concrete error
messages and caching disabled. -/
theorem c7_combined_error_witness :
    ∃ m, (ApiService.call
        { userPrompt := "hi", apiKeys := { cerebras := some "k", gemini := some "g" },
          useCache := false }
        { cerebras := Except.error "E1", gemini := Except.error "E2" } 0 initialCache).result =
      Except.error m
      ∧ (∃ p s, m.data = p ++ ("E1" : String).data ++ s)
      ∧ (∃ p s, m.data = p ++ ("E2" : String).data ++ s) :=
  c7_combined_error_contains_both
    { userPrompt := "hi", apiKeys := { cerebras := some "k", gemini := some "g" },
      useCache := false }
    { cerebras := Except.error "E1", gemini := Except.error "E2" } 0 initialCache
    "E1" "E2" (by decide) (by decide) rfl rfl (by intro h; cases h)

-- ═══════════════════════════════════════════════════════════════════════════
-- C9: behavior with no API keys
-- ═══════════════════════════════════════════════════════════════════════════

/-- Claim C9 as stated is false: with no keys but a valid cache entry for
the request, `call` returns the cached result instead of rejecting. (The
cache is process-wide, so an earlier keyed call can seed it.) -/
theorem c9_counterexample :
    (ApiService.call keylessOpts geminiUpEnv 1000 seededCache).result =
      Except.ok ⟨"resp", "cache", true, none⟩
    ∧ (ApiService.call keylessOpts geminiUpEnv 1000 seededCache).networkCalls = 0 := by
  refine ⟨by decide, by decide⟩

/-- Claim C9 (amended): with neither key truthy, `call` never issues a
network request; it rejects with the configuration error unless a valid
cache entry matches, in which case it returns the cached result. -/
theorem c9_no_keys_no_network (opts : CallOptions) (env : ProviderEnv)
    (now : Nat) (st : ResponseCacheState)
    (hc : truthyKey opts.apiKeys.cerebras = false)
    (hg : truthyKey opts.apiKeys.gemini = false) :
    (ApiService.call opts env now st).networkCalls = 0
    ∧ ((ApiService.call opts env now st).result =
        Except.error "No API keys configured. Please add an API key in settings."
      ∨ ∃ r, (ApiService.call opts env now st).result = Except.ok r
          ∧ r.provider = "cache" ∧ r.cached = true ∧ r.failover = none) := by
  rw [ApiService.call]
  by_cases hcc : (opts.useCache && !opts.stream) = true
  · rw [if_pos hcc]
    rcases hgp : ResponseCache.get st
        (ResponseCache.generateKey opts.systemPrompt opts.userPrompt opts.model) now
      with ⟨hit, st1⟩
    cases hit with
    | some cached =>
      exact ⟨rfl, Or.inr ⟨⟨cached, "cache", true, none⟩, rfl, rfl, rfl, rfl⟩⟩
    | none =>
      have hnp := networkPath_no_keys opts env now st1 hc hg
      simp [hnp]
  · rw [if_neg hcc, networkPath_no_keys opts env now st hc hg]
    exact ⟨rfl, Or.inl rfl⟩

/-- Witness for `c9_no_keys_no_network` at a concrete keyless request
against an empty cache. -/
theorem c9_no_keys_witness :
    (ApiService.call keylessOpts geminiUpEnv 0 initialCache).networkCalls = 0
    ∧ ((ApiService.call keylessOpts geminiUpEnv 0 initialCache).result =
        Except.error "No API keys configured. Please add an API key in settings."
      ∨ ∃ r, (ApiService.call keylessOpts geminiUpEnv 0 initialCache).result = Except.ok r
          ∧ r.provider = "cache" ∧ r.cached = true ∧ r.failover = none) :=
  c9_no_keys_no_network keylessOpts geminiUpEnv 0 initialCache (by decide) (by decide)

-- ═══════════════════════════════════════════════════════════════════════════
-- Streaming-decoder lemmas
-- ═══════════════════════════════════════════════════════════════════════════

theorem foldl_procLine_emitted (lines : List (List Char))
    (acc : List Char × List (List Char)) :
    (lines.foldl procLine acc).2 = acc.2 ++ lines.filterMap lineDelta := by
  induction lines generalizing acc with
  | nil => simp
  | cons l ls ih =>
    rw [List.foldl_cons, ih (procLine acc l)]
    cases hld : lineDelta l with
    | none => simp [procLine, hld, List.filterMap_cons]
    | some d => simp [procLine, hld, List.filterMap_cons]

theorem foldl_procLine_fullText (lines : List (List Char))
    (acc : List Char × List (List Char)) :
    (lines.foldl procLine acc).1 = acc.1 ++ (lines.filterMap lineDelta).flatten := by
  induction lines generalizing acc with
  | nil => simp
  | cons l ls ih =>
    rw [List.foldl_cons, ih (procLine acc l)]
    cases hld : lineDelta l with
    | none => simp [procLine, hld, List.filterMap_cons]
    | some d => simp [procLine, hld, List.filterMap_cons]

theorem processChunk_spec (acc : List Char × List (List Char)) (chunk : List Char) :
    processChunk acc chunk =
      (acc.1 ++ (chunkDeltas chunk).flatten, acc.2 ++ chunkDeltas chunk) := by
  rw [processChunk, chunkDeltas]
  exact Prod.ext (foldl_procLine_fullText _ _) (foldl_procLine_emitted _ _)

theorem processStream_spec (chunks : List (List Char)) :
    processStream chunks =
      (((chunks.map chunkDeltas).flatten).flatten, (chunks.map chunkDeltas).flatten) := by
  rw [processStream]
  have haux : ∀ (cs : List (List Char)) (acc : List Char × List (List Char)),
      cs.foldl processChunk acc =
        (acc.1 ++ ((cs.map chunkDeltas).flatten).flatten,
          acc.2 ++ (cs.map chunkDeltas).flatten) := by
    intro cs
    induction cs with
    | nil => intro acc; simp
    | cons c cs ih =>
      intro acc
      rw [List.foldl_cons, processChunk_spec, ih]
      simp [List.append_assoc]
  rw [haux]
  simp

theorem processStream_fullText_eq (chunks : List (List Char)) :
    (processStream chunks).1 = ((processStream chunks).2).flatten := by
  rw [processStream_spec]

theorem splitLines_ne_nil (cs : List Char) : splitLines cs ≠ [] := by
  cases cs with
  | nil => simp [splitLines]
  | cons c rest =>
    rw [splitLines]
    cases h : splitLines rest with
    | nil => simp
    | cons l ls =>
      by_cases hc : c = '\n'
      · simp [hc]
      · simp [hc]

theorem splitLines_nl (cs : List Char) :
    splitLines ('\n' :: cs) = [] :: splitLines cs := by
  rw [splitLines]
  cases h : splitLines cs with
  | nil => exact absurd h (splitLines_ne_nil cs)
  | cons l ls => simp

theorem splitLines_cons_ne (c : Char) (cs : List Char) (hc : c ≠ '\n') :
    splitLines (c :: cs) = (c :: (splitLines cs).headI) :: (splitLines cs).tail := by
  rw [splitLines]
  cases h : splitLines cs with
  | nil => exact absurd h (splitLines_ne_nil cs)
  | cons l ls => simp [hc]

theorem splitLines_append (l cs : List Char) (hl : ∀ c ∈ l, c ≠ '\n') :
    splitLines (l ++ cs) = (l ++ (splitLines cs).headI) :: (splitLines cs).tail := by
  induction l with
  | nil =>
    cases h : splitLines cs with
    | nil => exact absurd h (splitLines_ne_nil cs)
    | cons a as => simp [h]
  | cons c l ih =>
    have hc : c ≠ '\n' := hl c (List.mem_cons_self c l)
    have hl2 : ∀ x ∈ l, x ≠ '\n' := fun x hx => hl x (List.mem_cons_of_mem c hx)
    rw [List.cons_append, splitLines_cons_ne c (l ++ cs) hc, ih hl2]
    simp

theorem splitLines_joinNL (ls : List (List Char)) (hne : ls ≠ [])
    (h : ∀ l ∈ ls, ∀ c ∈ l, c ≠ '\n') : splitLines (joinNL ls) = ls := by
  induction ls with
  | nil => exact absurd rfl hne
  | cons l ls ih =>
    cases ls with
    | nil =>
      show splitLines (joinNL [l]) = [l]
      have hjl : joinNL [l] = l := rfl
      rw [hjl, ← List.append_nil l,
        splitLines_append l [] (h l (List.mem_cons_self l []))]
      simp [splitLines]
    | cons l2 ls2 =>
      have hj : joinNL (l :: l2 :: ls2) = l ++ '\n' :: joinNL (l2 :: ls2) := rfl
      rw [hj, splitLines_append l ('\n' :: joinNL (l2 :: ls2))
        (h l (List.mem_cons_self l _)), splitLines_nl,
        ih (by simp) (fun x hx => h x (List.mem_cons_of_mem l hx))]
      simp

theorem filterMap_filter_eq (p : List Char → Bool)
    (f : List Char → Option (List Char)) (ls : List (List Char)) :
    (ls.filter p).filterMap f =
      ls.filterMap (fun l => if p l then f l else none) := by
  induction ls with
  | nil => rfl
  | cons l ls ih =>
    by_cases hp : p l
    · simp [List.filter_cons, hp, List.filterMap_cons, ih]
    · simp [List.filter_cons, hp, List.filterMap_cons, ih]

theorem chunkDeltas_joinNL (ls : List (List Char))
    (h : ∀ l ∈ ls, ∀ c ∈ l, c ≠ '\n') :
    chunkDeltas (joinNL ls) = ls.filterMap lineEffect := by
  cases hls : ls with
  | nil => decide
  | cons l t =>
    rw [chunkDeltas, splitLines_joinNL (l :: t) (by simp) (hls ▸ h),
      filterMap_filter_eq]
    rfl

theorem flatten_map_filterMap (lls : List (List (List Char))) :
    (lls.map (fun ls => ls.filterMap lineEffect)).flatten =
      lls.flatten.filterMap lineEffect := by
  induction lls with
  | nil => rfl
  | cons ls lls ih =>
    rw [List.map_cons, List.flatten_cons, List.flatten_cons, ih, List.filterMap_append]

-- ═══════════════════════════════════════════════════════════════════════════
-- C3: exactly-once emission per frame, under stream partitioning
-- ═══════════════════════════════════════════════════════════════════════════

/-- Claim C3 as stated is false: the decoder keeps no carry-over buffer
across reads, so when one well-formed frame is split across two read
chunks its delta is dropped — the claim's "for every way the underlying
reader partitions the stream" fails. Delivered whole, `frameX` emits
`"X"`; the same bytes split after 20 characters emit nothing. -/
theorem c3_counterexample :
    (processStream [frameX]).2 = ["X".data]
    ∧ (processStream [frameX.take 20, frameX.drop 20]).2 = []
    ∧ frameX.take 20 ++ frameX.drop 20 = frameX := by
  refine ⟨by decide, by decide, by decide⟩

/-- Claim C3 (amended): for every read partition that keeps each line
within a single read chunk, the delta of every well-formed `data:` frame
is emitted exactly once, in stream order, and malformed or incomplete
payloads are skipped without aborting — so one corrupt frame followed by
N valid frames still yields all N deltas, and the final accumulated text
is their concatenation. When a frame straddles a read boundary its delta
can be dropped (see the counterexample). -/
theorem c3_line_aligned_frames_emit_once (lineLists : List (List (List Char)))
    (h : ∀ l ∈ lineLists.flatten, ∀ c ∈ l, c ≠ '\n') :
    processStream (lineLists.map joinNL) =
      ((lineLists.flatten.filterMap lineEffect).flatten,
        lineLists.flatten.filterMap lineEffect) := by
  rw [processStream_spec, List.map_map]
  have hmap : lineLists.map (chunkDeltas ∘ joinNL) =
      lineLists.map (fun ls => ls.filterMap lineEffect) := by
    apply List.map_congr_left
    intro ls hls
    exact chunkDeltas_joinNL ls (fun l hl => h l (List.mem_flatten.mpr ⟨ls, hls, hl⟩))
  rw [hmap, flatten_map_filterMap]

/-- Witness for `c3_line_aligned_frames_emit_once`: one corrupt frame in
its own read chunk followed by a chunk carrying two valid frames still
emits both valid deltas and completes with their concatenation. -/
theorem c3_line_aligned_witness :
    (∀ l ∈ ([[frameBad], [frameX, frameY]] : List (List (List Char))).flatten,
      ∀ c ∈ l, c ≠ '\n')
    ∧ processStream ([[frameBad], [frameX, frameY]].map joinNL) =
        ("XY".data, ["X".data, "Y".data]) := by
  refine ⟨by decide, ?_⟩
  rw [c3_line_aligned_frames_emit_once [[frameBad], [frameX, frameY]] (by decide)]
  decide

-- ═══════════════════════════════════════════════════════════════════════════
-- C4: the [DONE] sentinel
-- ═══════════════════════════════════════════════════════════════════════════

/-- Claim C4 as stated is false: `[DONE]` is handled with `continue`, not
`break`, so it does not terminate the read loop — a well-formed frame
after the sentinel in the byte stream is still emitted. -/
theorem c4_counterexample :
    processStream [("data: [DONE]\n".data) ++ frameX ++ ['\n']] =
      ("X".data, ["X".data]) := by
  decide

/-- Claim C4 (amended): the `[DONE]` sentinel frame is skipped without
emitting a chunk, but it does not terminate the loop: processing a stream
with a sentinel chunk is identical to processing the same stream without
it, and the loop ends only when the reader reports done. -/
theorem c4_sentinel_skipped_not_terminating (pre post : List (List Char)) :
    processStream (pre ++ ("data: [DONE]\n".data) :: post) =
      processStream (pre ++ post) := by
  rw [processStream_spec, processStream_spec]
  have hd : chunkDeltas ("data: [DONE]\n".data) = [] := by decide
  simp [hd]

-- ═══════════════════════════════════════════════════════════════════════════
-- C6: onComplete equals the concatenation of the onChunk arguments
-- ═══════════════════════════════════════════════════════════════════════════

/-- Claim C6: whenever a streaming session completes normally, the
argument of `onComplete` equals the concatenation, in arrival order, of
every string passed to `onChunk` — on the chunked-read path and on the
degraded non-streaming fallback path alike. -/
theorem c6_onComplete_is_concat_of_chunks (opts : CallOptions) (senv : StreamEnv)
    (env : ProviderEnv) (now : Nat) (st : ResponseCacheState) (t : List Char)
    (h : ((ApiService.stream opts senv env now st).1).completed = some t) :
    t = ((ApiService.stream opts senv env now st).1).chunksEmitted.flatten := by
  rw [ApiService.stream] at h ⊢
  by_cases hk : (!(truthyKey opts.apiKeys.cerebras)) = true
  · rw [if_pos hk] at h ⊢
    rcases hco : ApiService.call { opts with stream := false } env now st
      with ⟨res, fin, n⟩
    rw [hco] at h
    cases res with
    | ok r =>
      obtain rfl := Option.some.inj h
      simp
    | error e => simp at h
  · rw [if_neg hk] at h ⊢
    by_cases hf : (!senv.fetchOk) = true
    · rw [if_pos hf] at h
      simp at h
    · rw [if_neg hf] at h ⊢
      by_cases hr : senv.readFails = true
      · rw [if_pos hr] at h
        simp at h
      · rw [if_neg hr] at h ⊢
        obtain rfl := Option.some.inj h
        exact processStream_fullText_eq senv.chunks

/-- Witness for `c6_onComplete_is_concat_of_chunks`: a one-frame stream
completes with `"X"`, the concatenation of the single emitted chunk. -/
theorem c6_onComplete_witness :
    ((ApiService.stream cerebrasOnlyOpts ⟨true, [frameX ++ ['\n']], false⟩
        cerebrasUpEnv 0 initialCache).1).completed = some ("X".data)
    ∧ ("X".data : List Char) =
        ((ApiService.stream cerebrasOnlyOpts ⟨true, [frameX ++ ['\n']], false⟩
          cerebrasUpEnv 0 initialCache).1).chunksEmitted.flatten :=
  ⟨by decide,
    c6_onComplete_is_concat_of_chunks cerebrasOnlyOpts ⟨true, [frameX ++ ['\n']], false⟩
      cerebrasUpEnv 0 initialCache ("X".data) (by decide)⟩
